import Mathlib

/-!
Verification development for the concert-companion front-end: the
seating-chart interaction model (`SeatingChart.tsx`), the booth-status
aggregator (`MerchBoothTracker`), and the location-sharing state of
`App.tsx`. Numeric state is embedded over `ℚ`; the JavaScript floats of
the source are modelled as exact rationals.
-/

/-- A polygonal region of the seating chart (`VenueSection` of
`SeatingChart.tsx`). -/
structure VenueSection where
  id : String
  name : String
  color : String
  path : String
deriving DecidableEq

/-- The deserialized venue layout (`VenueData` of `SeatingChart.tsx`). -/
structure VenueData where
  sections : List VenueSection
deriving DecidableEq

/-- Outcome of the `try JSON.parse(venue.seating_chart_data) catch` block of
`SeatingChart.tsx` (lines 59-65): the JSON parser is external to the
component, so its outcome is represented as an `Option`; a parse failure
degrades to an empty section list. -/
def loadVenueData (parsed : Option VenueData) : VenueData :=
  match parsed with
  | some d => d
  | none => { sections := [] }

/-- Character membership in a string, the embedding of the JavaScript
`pathData.includes(c)` calls for one-character needles. -/
def containsChar (s : String) (c : Char) : Bool :=
  s.data.contains c

/-- Accumulator pass behind `digitRuns`: walks the characters, building the
current run of digits and flushing it when a non-digit appears. -/
def digitRunsAux : List Char → Option ℕ → List ℕ
  | [], none => []
  | [], some n => [n]
  | c :: cs, cur =>
      if c.isDigit then
        digitRunsAux cs (some ((cur.getD 0) * 10 + (c.toNat - 48)))
      else
        match cur with
        | none => digitRunsAux cs none
        | some n => n :: digitRunsAux cs none

/-- The numeric literals of a path string, in order: the embedding of
`pathData.match(/\d+/g)?.map(Number)` in `SeatingChart.tsx` line 126 — the
maximal runs of decimal digits, each read as a number. -/
def digitRuns (s : String) : List ℕ :=
  digitRunsAux s.data none

/-- Bounding-box membership used by the hit-test (`SeatingChart.tsx` lines
127-133): with at least 8 extracted numbers, destructure the first eight as
four `(x,y)` pairs and test the point against their axis-aligned bounding
box with inclusive bounds; with fewer than 8 numbers the test fails. -/
def bboxHit (coords : List ℕ) (x y : ℚ) : Bool :=
  match coords with
  | x1 :: y1 :: x2 :: y2 :: x3 :: y3 :: x4 :: y4 :: _ =>
      decide (min (min (x1 : ℚ) (x2 : ℚ)) (min (x3 : ℚ) (x4 : ℚ)) ≤ x ∧
              x ≤ max (max (x1 : ℚ) (x2 : ℚ)) (max (x3 : ℚ) (x4 : ℚ)) ∧
              min (min (y1 : ℚ) (y2 : ℚ)) (min (y3 : ℚ) (y4 : ℚ)) ≤ y ∧
              y ≤ max (max (y1 : ℚ) (y2 : ℚ)) (max (y3 : ℚ) (y4 : ℚ)))
  | _ => false

/-- The per-section hit predicate of `handleChartClick` (`SeatingChart.tsx`
lines 120-136): the path string must contain the letters `M`, `L` and `Z`,
and the logical point must lie in the bounding box of the first four
coordinate pairs among the path's numeric literals. -/
def sectionHit (x y : ℚ) (sec : VenueSection) : Bool :=
  if containsChar sec.path 'M' && containsChar sec.path 'L' &&
      containsChar sec.path 'Z' then
    bboxHit (digitRuns sec.path) x y
  else false

/-- The hit region as the specification words it, independent of the source:
the path string's numeric literals are parsed, the first four `(x,y)` pairs
define an axis-aligned bounding box, and the point hits iff it lies within
that box with inclusive bounds; fewer than eight numeric literals never
match. -/
def specBBoxHit (x y : ℚ) (coords : List ℕ) : Prop :=
  match coords with
  | x1 :: y1 :: x2 :: y2 :: x3 :: y3 :: x4 :: y4 :: _ =>
      min (min (x1 : ℚ) (x2 : ℚ)) (min (x3 : ℚ) (x4 : ℚ)) ≤ x ∧
      x ≤ max (max (x1 : ℚ) (x2 : ℚ)) (max (x3 : ℚ) (x4 : ℚ)) ∧
      min (min (y1 : ℚ) (y2 : ℚ)) (min (y3 : ℚ) (y4 : ℚ)) ≤ y ∧
      y ≤ max (max (y1 : ℚ) (y2 : ℚ)) (max (y3 : ℚ) (y4 : ℚ))
  | _ => False

/-- First section of the list whose hit predicate holds, the embedding of
`venueData.sections.find(...)` in `SeatingChart.tsx` line 120. -/
def clickedSection (x y : ℚ) (sections : List VenueSection) : Option VenueSection :=
  sections.find? (fun sec => sectionHit x y sec)

/-- Device-to-logical coordinate mapping of `handleChartClick`
(`SeatingChart.tsx` lines 115-117). -/
def clickToLogical (rectLeft rectTop panX panY zoom : ℚ) (p : ℚ × ℚ) : ℚ × ℚ :=
  ((p.1 - rectLeft - panX) / zoom, (p.2 - rectTop - panY) / zoom)

/-- Forward render transform of the chart content (`SeatingChart.tsx` lines
178-180): `translate(panOffset)` then `scale(zoomFactor)` place the logical
point `p` at device coordinates offset by the bounding rectangle origin. -/
def renderTransform (rectLeft rectTop panX panY zoom : ℚ) (p : ℚ × ℚ) : ℚ × ℚ :=
  (rectLeft + panX + zoom * p.1, rectTop + panY + zoom * p.2)

/-- The payload handed to `onLocationSelect` by an accepted click. -/
structure ClickResult where
  x : ℚ
  y : ℚ
  sectionName : Option String
deriving DecidableEq

/-- The click handler `handleChartClick` (`SeatingChart.tsx` lines 109-139):
bail out while dragging, otherwise transform to logical coordinates, look
for the first matching section, and fire the selection callback in every
case (with no section name when none matched). The `svgRef` null-guard is
elided: the handler is only reachable from the rendered element. -/
def handleChartClick (isDragging : Bool) (vd : VenueData)
    (rectLeft rectTop panX panY zoom clientX clientY : ℚ) : Option ClickResult :=
  if isDragging then none
  else
    let p := clickToLogical rectLeft rectTop panX panY zoom (clientX, clientY)
    some { x := p.1, y := p.2,
           sectionName := (clickedSection p.1 p.2 vd.sections).map (fun sec => sec.name) }

/-- Transient viewport state of the chart (`zoom` and `pan` of
`SeatingChart.tsx`). -/
structure ViewState where
  zoom : ℚ
  panX : ℚ
  panY : ℚ
deriving DecidableEq

/-- The three zoom-control buttons of `SeatingChart.tsx`. -/
inductive ZoomAction where
  | zoomIn
  | zoomOut
  | reset
deriving DecidableEq

/-- Zoom-in step (`handleZoomIn`, line 76-78): multiply by 1.2, clamp at 3. -/
def handleZoomIn (z : ℚ) : ℚ := min (z * (6 / 5)) 3

/-- Zoom-out step (`handleZoomOut`, line 80-82): divide by 1.2, clamp at 0.5. -/
def handleZoomOut (z : ℚ) : ℚ := max (z / (6 / 5)) (1 / 2)

/-- Effect of one zoom-control button on the viewport (`handleZoomIn`,
`handleZoomOut`, `handleReset` of `SeatingChart.tsx` lines 76-87). -/
def applyZoomAction : ViewState → ZoomAction → ViewState
  | s, ZoomAction.zoomIn => { s with zoom := handleZoomIn s.zoom }
  | s, ZoomAction.zoomOut => { s with zoom := handleZoomOut s.zoom }
  | _s, ZoomAction.reset => { zoom := 1, panX := 0, panY := 0 }

/-- A chained sequence of zoom-control presses. -/
def runZoomActions (s : ViewState) (acts : List ZoomAction) : ViewState :=
  acts.foldl applyZoomAction s

/-- Mouse-interaction state of the chart (`isDragging`, `pan`, `dragStart`
of `SeatingChart.tsx`). -/
structure ChartState where
  isDragging : Bool
  panX : ℚ
  panY : ℚ
  dragStartX : ℚ
  dragStartY : ℚ
deriving DecidableEq

/-- Initial mouse-interaction state (`useState` initializers). -/
def chartInit : ChartState :=
  { isDragging := false, panX := 0, panY := 0, dragStartX := 0, dragStartY := 0 }

/-- The pointer events the chart handles, in the order the browser delivers
them; a `click` always follows the `mouseUp` of the same press. -/
inductive ChartEvent where
  | mouseDown (button : ℕ) (clientX clientY : ℚ)
  | mouseMove (clientX clientY : ℚ)
  | mouseUp
  | mouseLeave
  | click (clientX clientY : ℚ)
deriving DecidableEq

/-- One pointer event applied to the chart state (`handleMouseDown`,
`handleMouseMove`, `handleMouseUp`, `onMouseLeave` and `handleChartClick`
of `SeatingChart.tsx` lines 89-139), returning the new state and the
selection callback fired, if any. -/
def stepChart (vd : VenueData) (rectLeft rectTop zoom : ℚ) :
    ChartState → ChartEvent → ChartState × Option ClickResult
  | st, ChartEvent.mouseDown button cx cy =>
      if button = 0 then
        ({ st with isDragging := true,
                   dragStartX := cx - st.panX, dragStartY := cy - st.panY }, none)
      else (st, none)
  | st, ChartEvent.mouseMove cx cy =>
      if st.isDragging then
        ({ st with panX := cx - st.dragStartX, panY := cy - st.dragStartY }, none)
      else (st, none)
  | st, ChartEvent.mouseUp => ({ st with isDragging := false }, none)
  | st, ChartEvent.mouseLeave => ({ st with isDragging := false }, none)
  | st, ChartEvent.click cx cy =>
      (st, handleChartClick st.isDragging vd rectLeft rectTop st.panX st.panY zoom cx cy)

/-- A sequence of pointer events applied in order, collecting every
selection callback fired along the way. -/
def runChart (vd : VenueData) (rectLeft rectTop zoom : ℚ) :
    ChartState → List ChartEvent → ChartState × List ClickResult
  | st, [] => (st, [])
  | st, e :: es =>
      ((runChart vd rectLeft rectTop zoom (stepChart vd rectLeft rectTop zoom st e).1 es).1,
       (stepChart vd rectLeft rectTop zoom st e).2.toList ++
         (runChart vd rectLeft rectTop zoom (stepChart vd rectLeft rectTop zoom st e).1 es).2)

/-- An authenticated user as the tracker sees it (only the `id` field is
consumed by `submitReport`). -/
structure AppUser where
  id : String
deriving DecidableEq

/-- A single line-length observation (`LineReport` of the merch booth
tracker); `wait_time_minutes` is `none` where the source stores `null`. -/
structure LineReport where
  id : String
  booth_id : String
  user_id : String
  line_length : ℤ
  wait_time_minutes : Option ℤ
  reported_at : String
deriving DecidableEq

/-- Trend direction of a booth's line length. -/
inductive Trend where
  | up
  | down
  | stable
deriving DecidableEq

/-- Derived status of one booth (`BoothStatus` of the tracker, without the
static booth record). -/
structure BoothStatus where
  avgLineLength : ℤ
  avgWaitTime : ℤ
  lastReported : String
  reportCount : ℕ
  trend : Trend
deriving DecidableEq

/-- The `Math.round` of JavaScript on the rationals: round half away from
zero toward positive infinity, i.e. the floor of `q + 1/2`. -/
def jsRound (q : ℚ) : ℤ := ⌊q + 1 / 2⌋

/-- Sum of the `line_length` fields over a report list, as a rational. -/
def lineLengthSum (reports : List LineReport) : ℚ :=
  (reports.map (fun r => (r.line_length : ℚ))).sum

/-- Sum of the stored wait times over a report list, reading an absent wait
time as 0 (the `(report.wait_time_minutes || 0)` of the source). -/
def waitTimeSum (reports : List LineReport) : ℚ :=
  (reports.map (fun r => ((r.wait_time_minutes.getD 0 : ℤ) : ℚ))).sum

/-- Presence test for a wait time, the `r.wait_time_minutes !== null`
filter of the source. -/
def hasWaitTime (r : LineReport) : Bool :=
  r.wait_time_minutes.isSome

/-- The trend computation of `loadBoothStatuses` (tracker lines 97-104) on a
newest-first report list: only with at least 6 reports, compare the mean
line length of the newest three against the three before them with a 0.3
dead band. -/
def computeTrend (reports : List LineReport) : Trend :=
  if 6 ≤ reports.length then
    if lineLengthSum (reports.take 3) / 3 >
        lineLengthSum ((reports.drop 3).take 3) / 3 + 3 / 10 then Trend.up
    else if lineLengthSum (reports.take 3) / 3 <
        lineLengthSum ((reports.drop 3).take 3) / 3 - 3 / 10 then Trend.down
    else Trend.stable
  else Trend.stable

/-- Mean line length of the newest three reports, as the specification
words it (`recent3`). -/
def recent3Mean (reports : List LineReport) : ℚ :=
  lineLengthSum (reports.take 3) / 3

/-- Mean line length of the reports ranked 4-6, as the specification words
it (`previous3`). -/
def previous3Mean (reports : List LineReport) : ℚ :=
  lineLengthSum ((reports.drop 3).take 3) / 3

/-- The newest-first fetch of one booth's reports (`blink.db.line_reports.list`
with `orderBy reported_at desc, limit 20`): the input list is the full
newest-first history, of which at most 20 reports are returned. -/
def fetchRecent (allNewestFirst : List LineReport) : List LineReport :=
  allNewestFirst.take 20

/-- Per-booth aggregation of `loadBoothStatuses` (tracker lines 84-124) over
the fetched newest-first report list. -/
def computeBoothStatus (recentReports : List LineReport) : BoothStatus :=
  match recentReports with
  | [] =>
      { avgLineLength := 0, avgWaitTime := 0, lastReported := "",
        reportCount := 0, trend := Trend.stable }
  | first :: _ =>
      { avgLineLength := jsRound (lineLengthSum recentReports / recentReports.length),
        avgWaitTime :=
          jsRound (if 0 < (recentReports.filter hasWaitTime).length then
              waitTimeSum (recentReports.filter hasWaitTime) /
                (recentReports.filter hasWaitTime).length
            else 0),
        lastReported := first.reported_at,
        reportCount := recentReports.length,
        trend := computeTrend recentReports }

/-- Mean of a list of rationals, as the specification words averages. -/
def meanQ (l : List ℚ) : ℚ := l.sum / l.length

/-- The value of the leading decimal-digit run of a character list. -/
def leadingDigitsVal : List Char → ℕ → ℕ
  | c :: cs, acc =>
      if c.isDigit then leadingDigitsVal cs (acc * 10 + (c.toNat - 48)) else acc
  | [], acc => acc

/-- JavaScript `parseInt` restricted to the tracker's select values, which
are all plain digit strings: the value of the leading digit run. -/
def jsParseInt (s : String) : ℤ :=
  Int.ofNat (leadingDigitsVal s.data 0)

/-- The `submitReport` action of the tracker (lines 146-172): bail out when
no booth is chosen, the line-length string is empty, or no user is signed
in (the JavaScript falsiness of those three guards); otherwise append a new
report built from the form fields — `wait_time_minutes` is `null` exactly
when the wait-time string is empty, since every non-empty string is truthy —
and trigger a refresh (the returned flag). -/
def submitReport (user : Option AppUser)
    (selectedBooth reportLineLength reportWaitTime : String)
    (db : List LineReport) (newId now : String) : List LineReport × Bool :=
  match user with
  | none => (db, false)
  | some u =>
      if selectedBooth = "" ∨ reportLineLength = "" then (db, false)
      else
        (db ++ [{ id := newId, booth_id := selectedBooth, user_id := u.id,
                  line_length := jsParseInt reportLineLength,
                  wait_time_minutes :=
                    if reportWaitTime = "" then none
                    else some (jsParseInt reportWaitTime),
                  reported_at := now }], true)

/-- A shared location row (`UserLocation` of `App.tsx`). -/
structure UserLocation where
  id : String
  room_id : String
  user_id : String
  user_name : String
  x_position : ℚ
  y_position : ℚ
  section_name : Option String
  seat_info : Option String
deriving DecidableEq

/-- The location record built by `handleLocationUpdate` (`App.tsx` lines
83-96): its `id` is the user id and the room id joined by a hyphen. -/
def mkUserLocation (userId roomId userName : String) (x y : ℚ)
    (sectionName : Option String) : UserLocation :=
  { id := userId ++ "-" ++ roomId, room_id := roomId, user_id := userId,
    user_name := userName, x_position := x, y_position := y,
    section_name := sectionName, seat_info := none }

/-- Modelled from the spec: `store.upsert(collection, record)` of the
external backend client (spec section 6), whose implementation is not part
of this repository — replace the row with the record's `id` when one
exists, insert the record otherwise. -/
def upsert (rows : List UserLocation) (rec : UserLocation) : List UserLocation :=
  if rows.any (fun r => r.id == rec.id) then
    rows.map (fun r => if r.id == rec.id then rec else r)
  else rows ++ [rec]

/-- The realtime messages the room subscription handles (`App.tsx` lines
64-81). -/
inductive RealtimeMessage where
  | locationUpdate (loc : UserLocation)
  | userLeft (userId : String)
  | other
deriving DecidableEq

/-- The room subscription handler of `App.tsx` (lines 67-78): a location
update drops every entry of the same user and appends the new one; a
user-left message drops that user's entries; other messages are ignored. -/
def applyRealtimeMessage (locs : List UserLocation) :
    RealtimeMessage → List UserLocation
  | RealtimeMessage.locationUpdate loc =>
      (locs.filter (fun l => l.user_id != loc.user_id)) ++ [loc]
  | RealtimeMessage.userLeft uid => locs.filter (fun l => l.user_id != uid)
  | RealtimeMessage.other => locs

/-- A section whose path encodes the quad corners (0,0), (100,0),
(100,100), (0,100), used by the hit-test examples. -/
def demoSection : VenueSection :=
  { id := "floor", name := "Floor", color := "#8B5CF6",
    path := "M 0 0 L 100 0 L 100 100 L 0 100 Z" }

/-- A report with the given line length and wait time (fixed booth, user
and timestamp), used by the aggregation examples. -/
def mkReport (ll : ℤ) (wt : Option ℤ) : LineReport :=
  { id := "r", booth_id := "b1", user_id := "u1", line_length := ll,
    wait_time_minutes := wt, reported_at := "t" }

/-- Six reports newest-first with line lengths 3,3,3,0,0,0. -/
def demoReports6 : List LineReport :=
  [mkReport 3 none, mkReport 3 none, mkReport 3 none,
   mkReport 0 none, mkReport 0 none, mkReport 0 none]

/-! Helper lemmas shared by the claim theorems. -/

theorem bboxHit_iff_specBBoxHit (coords : List ℕ) (x y : ℚ) :
    bboxHit coords x y = true ↔ specBBoxHit x y coords := by
  rcases coords with _ | ⟨x1, _ | ⟨y1, _ | ⟨x2, _ | ⟨y2, _ |
    ⟨x3, _ | ⟨y3, _ | ⟨x4, _ | ⟨y4, rest⟩⟩⟩⟩⟩⟩⟩⟩ <;>
      simp [bboxHit, specBBoxHit]

theorem bboxHit_short (coords : List ℕ) (x y : ℚ) (h : coords.length < 8) :
    bboxHit coords x y = false := by
  rcases coords with _ | ⟨x1, _ | ⟨y1, _ | ⟨x2, _ | ⟨y2, _ |
    ⟨x3, _ | ⟨y3, _ | ⟨x4, _ | ⟨y4, rest⟩⟩⟩⟩⟩⟩⟩⟩ <;>
      simp_all [bboxHit]
  omega

theorem find_eq_some_split {α : Type} (p : α → Bool) :
    ∀ (l : List α) (a : α), l.find? p = some a →
      ∃ l1 l2, l = l1 ++ a :: l2 ∧ (∀ b ∈ l1, p b = false) ∧ p a = true := by
  intro l
  induction l with
  | nil => intro a h; simp [List.find?] at h
  | cons c cs ih =>
      intro a h
      by_cases hc : p c = true
      · rw [List.find?_cons_of_pos _ hc] at h
        obtain rfl : c = a := by injection h
        exact ⟨[], cs, rfl, by intro b hb; simp at hb, hc⟩
      · rw [List.find?_cons_of_neg _ hc] at h
        obtain ⟨l1, l2, hsplit, hfail, hp⟩ := ih a h
        exact ⟨c :: l1, l2, by rw [hsplit]; rfl,
          by intro b hb
             rw [List.mem_cons] at hb
             rcases hb with rfl | hb
             · simpa using hc
             · exact hfail b hb, hp⟩

theorem zoomAction_preserves_bounds (s : ViewState) (a : ZoomAction)
    (h1 : 1 / 2 ≤ s.zoom) (h2 : s.zoom ≤ 3) :
    1 / 2 ≤ (applyZoomAction s a).zoom ∧ (applyZoomAction s a).zoom ≤ 3 := by
  cases a with
  | zoomIn =>
      refine ⟨le_min (by linarith) (by norm_num), ?_⟩
      exact min_le_right (s.zoom * (6 / 5)) 3
  | zoomOut =>
      refine ⟨?_, max_le (by linarith) (by norm_num)⟩
      exact le_max_right (s.zoom / (6 / 5)) (1 / 2)
  | reset => constructor <;> norm_num [applyZoomAction]

/-! Claim theorems. -/

/-- C4. Coordinate inversion round-trip: for every pan offset, nonzero zoom
factor and rectangle origin, the click-to-logical mapping of
`handleChartClick` is the exact algebraic inverse of the forward render
transform `translate(panOffset)` then `scale(zoomFactor)`: composing the
transforms in either order returns the original point. -/
theorem coordinate_inversion_roundtrip
    (rectLeft rectTop panX panY zoom : ℚ) (p : ℚ × ℚ) (hz : zoom ≠ 0) :
    clickToLogical rectLeft rectTop panX panY zoom
        (renderTransform rectLeft rectTop panX panY zoom p) = p ∧
    renderTransform rectLeft rectTop panX panY zoom
        (clickToLogical rectLeft rectTop panX panY zoom p) = p := by
  constructor <;> apply Prod.ext <;>
    (simp only [clickToLogical, renderTransform]; field_simp; try ring)

/-- Witness for C4 at pan (3,4), zoom 2, rectangle origin (1,2), point
(5,6). -/
theorem coordinate_inversion_roundtrip_witness :
    clickToLogical 1 2 3 4 2 (renderTransform 1 2 3 4 2 (5, 6)) = (5, 6) ∧
    renderTransform 1 2 3 4 2 (clickToLogical 1 2 3 4 2 (5, 6)) = (5, 6) :=
  coordinate_inversion_roundtrip 1 2 3 4 2 (5, 6) (by norm_num)

/-- C5. Zoom clamp invariant: starting from any zoom factor in [0.5, 3]
(the initial value is 1), every chained sequence of zoom-in (multiply by
1.2), zoom-out (divide by 1.2) and reset presses leaves the zoom factor
within [0.5, 3]; reset sets zoom to 1 and pan to (0,0). -/
theorem zoom_clamp_invariant :
    (∀ (s : ViewState) (acts : List ZoomAction),
        1 / 2 ≤ s.zoom → s.zoom ≤ 3 →
        1 / 2 ≤ (runZoomActions s acts).zoom ∧ (runZoomActions s acts).zoom ≤ 3) ∧
    (∀ s : ViewState,
        applyZoomAction s ZoomAction.reset = { zoom := 1, panX := 0, panY := 0 }) := by
  constructor
  · intro s acts
    induction acts generalizing s with
    | nil => intro h1 h2; exact ⟨h1, h2⟩
    | cons a rest ih =>
        intro h1 h2
        obtain ⟨h1s, h2s⟩ := zoomAction_preserves_bounds s a h1 h2
        simpa [runZoomActions, List.foldl] using ih (applyZoomAction s a) h1s h2s
  · intro s; rfl

/-- Witness for C5: starting from zoom 1, the chain zoom-in, zoom-in,
zoom-out, reset stays within the clamp range. -/
theorem zoom_clamp_invariant_witness :
    1 / 2 ≤ (runZoomActions { zoom := 1, panX := 0, panY := 0 }
        [ZoomAction.zoomIn, ZoomAction.zoomIn, ZoomAction.zoomOut,
         ZoomAction.reset]).zoom ∧
    (runZoomActions { zoom := 1, panX := 0, panY := 0 }
        [ZoomAction.zoomIn, ZoomAction.zoomIn, ZoomAction.zoomOut,
         ZoomAction.reset]).zoom ≤ 3 :=
  zoom_clamp_invariant.1 { zoom := 1, panX := 0, panY := 0 }
    [ZoomAction.zoomIn, ZoomAction.zoomIn, ZoomAction.zoomOut, ZoomAction.reset]
    (by norm_num) (by norm_num)

/-- C9. Layout parse-failure degradation: when the stored seating-chart
string fails to parse, the section list degrades to empty, and every
non-drag click is still accepted and forwarded with the raw logical
coordinates and no section name. -/
theorem layout_parse_failure_degrades :
    ((loadVenueData none).sections = []) ∧
    (∀ (rectLeft rectTop panX panY zoom clientX clientY : ℚ),
        handleChartClick false (loadVenueData none)
            rectLeft rectTop panX panY zoom clientX clientY
          = some { x := (clientX - rectLeft - panX) / zoom,
                   y := (clientY - rectTop - panY) / zoom,
                   sectionName := none }) := by
  constructor
  · rfl
  · intro rectLeft rectTop panX panY zoom clientX clientY
    rfl

/-- C1. Section hit-test: for every non-drag click, after transforming to
logical coordinates, the sections are tested in list order; over the
move/line/close path strings of the data model (the path contains `M`, `L`
and `Z`), a section is hit iff the logical point lies, with inclusive
bounds, in the axis-aligned bounding box of the first four coordinate pairs
among the path's numeric literals; the first matching section in list order
wins; when no section matches the selection callback still fires with no
section name; a path with fewer than 8 numeric literals never matches; and
for a path encoding the quad corners (0,0), (100,0), (100,100), (0,100),
the point (50,50) matches while (150,150) does not. -/
theorem sectionHitTest_correct :
    (∀ (x y : ℚ) (sec : VenueSection),
        containsChar sec.path 'M' = true → containsChar sec.path 'L' = true →
        containsChar sec.path 'Z' = true →
        (sectionHit x y sec = true ↔ specBBoxHit x y (digitRuns sec.path))) ∧
    (∀ (x y : ℚ) (sec : VenueSection), (digitRuns sec.path).length < 8 →
        sectionHit x y sec = false) ∧
    (∀ (x y : ℚ) (sections : List VenueSection) (sec : VenueSection),
        clickedSection x y sections = some sec →
        ∃ pre post, sections = pre ++ sec :: post ∧
          (∀ b ∈ pre, sectionHit x y b = false) ∧ sectionHit x y sec = true) ∧
    (∀ (vd : VenueData) (rectLeft rectTop panX panY zoom clientX clientY : ℚ),
        clickedSection ((clientX - rectLeft - panX) / zoom)
            ((clientY - rectTop - panY) / zoom) vd.sections = none →
        handleChartClick false vd rectLeft rectTop panX panY zoom clientX clientY
          = some { x := (clientX - rectLeft - panX) / zoom,
                   y := (clientY - rectTop - panY) / zoom,
                   sectionName := none }) ∧
    (sectionHit 50 50 demoSection = true ∧ sectionHit 150 150 demoSection = false) := by
  refine ⟨?_, ?_, ?_, ?_, by decide, by decide⟩
  · intro x y sec hM hL hZ
    rw [sectionHit, if_pos (by simp [hM, hL, hZ])]
    exact bboxHit_iff_specBBoxHit _ x y
  · intro x y sec h
    rw [sectionHit]
    split
    · exact bboxHit_short _ x y h
    · rfl
  · intro x y sections sec h
    exact find_eq_some_split _ sections sec h
  · intro vd rectLeft rectTop panX panY zoom clientX clientY h
    simp [handleChartClick, clickToLogical, h]

/-- Witness for C1: the bounding-box characterization instantiated at the
demo section, whose path contains `M`, `L` and `Z`, and the point
(50,50). -/
theorem sectionHitTest_correct_witness :
    sectionHit 50 50 demoSection = true ↔
      specBBoxHit 50 50 (digitRuns demoSection.path) :=
  sectionHitTest_correct.1 50 50 demoSection (by decide) (by decide) (by decide)

/-- C2. Trend computation: on a fetched newest-first report list, the trend
is up or down only when at least 6 reports are available; with at least 6
reports, the trend is up iff the mean line length of the newest three
reports exceeds the mean of the reports ranked 4-6 by more than 0.3, and
down iff it falls short by more than 0.3; with fewer than 6 reports the
trend is always stable; and for line lengths 3,3,3,0,0,0 newest-first the
trend is up. -/
theorem trend_computation_correct :
    (∀ reports : List LineReport, reports.length < 6 →
        computeTrend reports = Trend.stable) ∧
    (∀ reports : List LineReport,
        computeTrend reports = Trend.up ∨ computeTrend reports = Trend.down →
        6 ≤ reports.length) ∧
    (∀ reports : List LineReport, 6 ≤ reports.length →
        ((computeTrend reports = Trend.up ↔
            recent3Mean reports > previous3Mean reports + 3 / 10) ∧
         (computeTrend reports = Trend.down ↔
            recent3Mean reports < previous3Mean reports - 3 / 10))) ∧
    computeTrend demoReports6 = Trend.up := by
  refine ⟨?_, ?_, ?_, ?_⟩
  · intro reports h
    rw [computeTrend, if_neg (by omega)]
  · intro reports h
    by_contra hlen
    push_neg at hlen
    rw [computeTrend, if_neg (by omega)] at h
    rcases h with h | h <;> simp at h
  · intro reports h
    rw [computeTrend, if_pos h]
    simp only [recent3Mean, previous3Mean]
    split_ifs with h1 h2
    · exact ⟨iff_of_true rfl h1, iff_of_false (by decide) (by linarith)⟩
    · exact ⟨iff_of_false (by decide) h1, iff_of_true rfl h2⟩
    · exact ⟨iff_of_false (by decide) h1, iff_of_false (by decide) h2⟩
  · norm_num [computeTrend, demoReports6, lineLengthSum, mkReport]

/-- Witness for C2: the up-trend characterization instantiated at the six
demo reports. -/
theorem trend_computation_correct_witness :
    computeTrend demoReports6 = Trend.up ↔
      recent3Mean demoReports6 > previous3Mean demoReports6 + 3 / 10 :=
  (trend_computation_correct.2.2.1 demoReports6 (by decide)).1

/-- C3. Per-booth aggregation: when zero reports are fetched the status is
all-zero with an empty timestamp and a stable trend; otherwise the average
line length is the rounded mean over all fetched reports, the average wait
time is the rounded mean over only the fetched reports carrying a wait time
(0 when none does), the last-reported timestamp is that of the newest
report, and the report count is the number of fetched reports, which is at
most 20. -/
theorem boothStatus_aggregation_correct :
    (∀ all : List LineReport, fetchRecent all = [] →
        computeBoothStatus (fetchRecent all)
          = { avgLineLength := 0, avgWaitTime := 0, lastReported := "",
              reportCount := 0, trend := Trend.stable }) ∧
    (∀ (all : List LineReport) (first : LineReport) (rest : List LineReport),
        fetchRecent all = first :: rest →
        ((computeBoothStatus (fetchRecent all)).avgLineLength
            = jsRound (meanQ ((fetchRecent all).map (fun r => (r.line_length : ℚ))))) ∧
        ((fetchRecent all).filter hasWaitTime ≠ [] →
            (computeBoothStatus (fetchRecent all)).avgWaitTime
              = jsRound (meanQ (((fetchRecent all).filter hasWaitTime).map
                  (fun r => ((r.wait_time_minutes.getD 0 : ℤ) : ℚ))))) ∧
        ((fetchRecent all).filter hasWaitTime = [] →
            (computeBoothStatus (fetchRecent all)).avgWaitTime = 0) ∧
        ((computeBoothStatus (fetchRecent all)).lastReported = first.reported_at) ∧
        ((computeBoothStatus (fetchRecent all)).reportCount = (fetchRecent all).length) ∧
        ((fetchRecent all).length ≤ 20)) := by
  constructor
  · intro all h
    rw [h]
    rfl
  · intro all first rest h
    have hlen : (fetchRecent all).length ≤ 20 := by
      rw [fetchRecent, List.length_take]
      exact min_le_left 20 all.length
    rw [h] at hlen ⊢
    refine ⟨?_, ?_, ?_, rfl, rfl, hlen⟩
    · simp [computeBoothStatus, meanQ, lineLengthSum, List.length_map]
    · intro hne
      have hpos : 0 < ((first :: rest).filter hasWaitTime).length :=
        List.length_pos.mpr hne
      simp only [computeBoothStatus]
      rw [if_pos hpos]
      simp [meanQ, waitTimeSum, List.length_map]
    · intro hz
      simp only [computeBoothStatus]
      rw [hz]
      norm_num [jsRound]

/-- Witness for C3: the newest-report timestamp conjunct instantiated at a
one-report fetch. -/
theorem boothStatus_aggregation_correct_witness :
    (computeBoothStatus (fetchRecent [mkReport 2 (some 10)])).lastReported
      = (mkReport 2 (some 10)).reported_at :=
  (boothStatus_aggregation_correct.2 [mkReport 2 (some 10)]
    (mkReport 2 (some 10)) [] rfl).2.2.2.1

theorem runChart_append (vd : VenueData) (rectLeft rectTop zoom : ℚ)
    (st : ChartState) (es1 es2 : List ChartEvent) :
    runChart vd rectLeft rectTop zoom st (es1 ++ es2)
      = ((runChart vd rectLeft rectTop zoom
            (runChart vd rectLeft rectTop zoom st es1).1 es2).1,
         (runChart vd rectLeft rectTop zoom st es1).2 ++
           (runChart vd rectLeft rectTop zoom
             (runChart vd rectLeft rectTop zoom st es1).1 es2).2) := by
  induction es1 generalizing st with
  | nil => simp [runChart]
  | cons e es ih => simp [runChart, ih]

/-- C6, counterexample: a click immediately following a pan drag (press at
(10,10), move to (30,30), release, click at (30,30)) does fire a selection
callback — the code has no drag threshold and the mouse-up clears the
dragging flag before the click is processed, so the claimed suppression of
the post-drag click does not happen. -/
theorem click_after_drag_fires_selection :
    (runChart { sections := [] } 0 0 1 chartInit
        [ChartEvent.mouseDown 0 10 10, ChartEvent.mouseMove 30 30,
         ChartEvent.mouseUp, ChartEvent.click 30 30]).2
      = [{ x := 10, y := 10, sectionName := none }] := by
  norm_num [runChart, stepChart, handleChartClick, clickToLogical,
    clickedSection, chartInit]

/-- C6, amended: a click event processed while the drag flag is set never
triggers a selection (and in particular a click processed right after a
primary-button press is suppressed); but once a mouse-up has cleared the
drag flag, the next click always yields exactly one selection callback —
including a click immediately following a pan drag, since the code has no
movement threshold and mouse-up precedes the click event. -/
theorem drag_click_suppression_amended :
    (∀ (vd : VenueData) (rectLeft rectTop zoom cx cy : ℚ) (st : ChartState),
        st.isDragging = true →
        stepChart vd rectLeft rectTop zoom st (ChartEvent.click cx cy) = (st, none)) ∧
    (∀ (vd : VenueData) (rectLeft rectTop zoom a b cx cy : ℚ) (st : ChartState),
        (runChart vd rectLeft rectTop zoom st
            [ChartEvent.mouseDown 0 a b, ChartEvent.click cx cy]).2 = []) ∧
    (∀ (vd : VenueData) (rectLeft rectTop zoom cx cy : ℚ) (st : ChartState)
        (es : List ChartEvent),
        (runChart vd rectLeft rectTop zoom st
            (es ++ [ChartEvent.mouseUp, ChartEvent.click cx cy])).2.length
          = (runChart vd rectLeft rectTop zoom st es).2.length + 1) := by
  refine ⟨?_, ?_, ?_⟩
  · intro vd rectLeft rectTop zoom cx cy st h
    simp [stepChart, handleChartClick, h]
  · intro vd rectLeft rectTop zoom a b cx cy st
    simp [runChart, stepChart, handleChartClick]
  · intro vd rectLeft rectTop zoom cx cy st es
    rw [runChart_append]
    simp [runChart, stepChart, handleChartClick]

/-- Witness for the amended C6: a click processed in a dragging state is
suppressed. -/
theorem drag_click_suppression_amended_witness :
    stepChart { sections := [] } 0 0 1
        { isDragging := true, panX := 0, panY := 0,
          dragStartX := 0, dragStartY := 0 }
        (ChartEvent.click 5 5)
      = ({ isDragging := true, panX := 0, panY := 0,
           dragStartX := 0, dragStartY := 0 }, none) :=
  drag_click_suppression_amended.1 { sections := [] } 0 0 1 5 5
    { isDragging := true, panX := 0, panY := 0,
      dragStartX := 0, dragStartY := 0 } rfl

/-- C7. Report submission: for every chosen booth, authenticated user and
required line length equal to one of the four discrete levels (the select
values are the strings 0 to 3; the wait time is optional), the submit
action appends a new `LineReport` carrying that line length to the store
and triggers a refresh; every pre-existing report is left in place, so
submission never updates an existing report. -/
theorem report_submission_appends :
    ∀ (u : AppUser) (booth ll wait newId now : String) (db : List LineReport),
      booth ≠ "" → (ll = "0" ∨ ll = "1" ∨ ll = "2" ∨ ll = "3") →
      ∃ r : LineReport,
        submitReport (some u) booth ll wait db newId now = (db ++ [r], true) ∧
        r.booth_id = booth ∧ r.user_id = u.id ∧
        ((ll = "0" → r.line_length = 0) ∧ (ll = "1" → r.line_length = 1) ∧
         (ll = "2" → r.line_length = 2) ∧ (ll = "3" → r.line_length = 3)) ∧
        (∀ old ∈ db, old ∈ (submitReport (some u) booth ll wait db newId now).1) ∧
        (submitReport (some u) booth ll wait db newId now).1.length = db.length + 1 := by
  intro u booth ll wait newId now db hbooth hll
  have hcond : ¬(booth = "" ∨ ll = "") := by
    rcases hll with rfl | rfl | rfl | rfl <;> simp [hbooth]
  have heq : submitReport (some u) booth ll wait db newId now
      = (db ++ [{ id := newId, booth_id := booth, user_id := u.id,
                  line_length := jsParseInt ll,
                  wait_time_minutes :=
                    if wait = "" then none else some (jsParseInt wait),
                  reported_at := now }], true) := by
    rw [submitReport, if_neg hcond]
  refine ⟨_, heq, rfl, rfl, ⟨?_, ?_, ?_, ?_⟩, ?_, ?_⟩
  · intro h; subst h; exact (by decide : jsParseInt "0" = (0 : ℤ))
  · intro h; subst h; exact (by decide : jsParseInt "1" = (1 : ℤ))
  · intro h; subst h; exact (by decide : jsParseInt "2" = (2 : ℤ))
  · intro h; subst h; exact (by decide : jsParseInt "3" = (3 : ℤ))
  · intro old hold
    rw [heq]
    exact List.mem_append_left _ hold
  · rw [heq]
    simp

/-- Witness for C7 at a concrete booth, user and line length 2 over an
empty store. -/
theorem report_submission_appends_witness :
    ∃ r : LineReport,
      submitReport (some { id := "u1" }) "b1" "2" "" [] "rep1" "t1"
          = ([] ++ [r], true) ∧
      r.booth_id = "b1" ∧ r.user_id = AppUser.id { id := "u1" } ∧
      ((("2" : String) = "0" → r.line_length = 0) ∧
       (("2" : String) = "1" → r.line_length = 1) ∧
       (("2" : String) = "2" → r.line_length = 2) ∧
       (("2" : String) = "3" → r.line_length = 3)) ∧
      (∀ old ∈ ([] : List LineReport),
          old ∈ (submitReport (some { id := "u1" }) "b1" "2" "" [] "rep1" "t1").1) ∧
      (submitReport (some { id := "u1" }) "b1" "2" "" [] "rep1" "t1").1.length
        = ([] : List LineReport).length + 1 :=
  report_submission_appends { id := "u1" } "b1" "2" "" "rep1" "t1" []
    (by decide) (Or.inr (Or.inr (Or.inl rfl)))

/-- C10, counterexample: with the wait-time input set to the string 0 (the
No-wait option), the created report stores `wait_time_minutes` as 0, not
`null` — a non-empty string is truthy in JavaScript, so the claimed
collapse of a zero-minute wait into an absent wait time does not happen. -/
theorem zero_wait_stored_as_zero :
    ((submitReport (some { id := "u1" }) "booth1" "1" "0" [] "rep1" "t0").1.map
        (fun r => r.wait_time_minutes)) = [some 0] ∧
    ((submitReport (some { id := "u1" }) "booth1" "1" "0" [] "rep1" "t0").1.map
        (fun r => r.wait_time_minutes)) ≠ [none] := by
  constructor <;> decide

/-- C10, amended: when the wait-time input is the string 0, the created
report stores `wait_time_minutes` as 0; only an empty wait-time input
yields `null`; a stored zero-minute wait therefore counts as present and
participates in the average-wait-time mean (for reports with waits 0 and 10
the average is 5, not 10). -/
theorem zero_wait_amended :
    (∀ (u : AppUser) (booth ll newId now : String) (db : List LineReport),
        booth ≠ "" → ll ≠ "" →
        ((submitReport (some u) booth ll "0" db newId now).1.drop db.length).map
            (fun r => r.wait_time_minutes) = [some 0]) ∧
    (∀ (u : AppUser) (booth ll newId now : String) (db : List LineReport),
        booth ≠ "" → ll ≠ "" →
        ((submitReport (some u) booth ll "" db newId now).1.drop db.length).map
            (fun r => r.wait_time_minutes) = [none]) ∧
    (∀ r : LineReport, r.wait_time_minutes = some 0 → hasWaitTime r = true) ∧
    ((computeBoothStatus [mkReport 1 (some 0), mkReport 1 (some 10)]).avgWaitTime = 5) := by
  refine ⟨?_, ?_, ?_, ?_⟩
  · intro u booth ll newId now db hbooth hll
    rw [submitReport, if_neg (by simp [hbooth, hll]), List.drop_left]
    rfl
  · intro u booth ll newId now db hbooth hll
    rw [submitReport, if_neg (by simp [hbooth, hll]), List.drop_left]
    rfl
  · intro r h
    simp [hasWaitTime, h]
  · norm_num [computeBoothStatus, waitTimeSum, hasWaitTime, mkReport, jsRound,
      computeTrend, lineLengthSum]

/-- Witness for the amended C10 at a concrete submission over an empty
store. -/
theorem zero_wait_amended_witness :
    ((submitReport (some { id := "u1" }) "b1" "1" "0" [] "r1" "t1").1.drop
        ([] : List LineReport).length).map (fun r => r.wait_time_minutes)
      = [some 0] :=
  zero_wait_amended.1 { id := "u1" } "b1" "1" "r1" "t1" [] (by decide) (by decide)

theorem upsert_any_id (rows : List UserLocation) (rec : UserLocation) :
    (upsert rows rec).any (fun r => r.id == rec.id) = true := by
  rw [upsert]
  by_cases h : rows.any (fun r => r.id == rec.id) = true
  · rw [if_pos h]
    rw [List.any_eq_true] at h ⊢
    obtain ⟨r0, hmem, hid⟩ := h
    refine ⟨rec, List.mem_map.mpr ⟨r0, hmem, ?_⟩, by simp⟩
    rw [if_pos hid]
  · rw [if_neg h]
    rw [List.any_eq_true]
    exact ⟨rec, List.mem_append_right _ (List.mem_singleton.mpr rfl), by simp⟩

/-- C8. At most one location per user: the location record written for a
user in a room carries the id formed of the user id and the room id joined
by a hyphen (so `u1-R1` for user u1 in room R1), and a second upsert from
the same user in the same room replaces the stored row instead of adding
one; after a realtime location update the in-memory list holds exactly the
new entry for that user, and applying any realtime message preserves the
at-most-one-entry-per-user invariant of the list. -/
theorem one_location_per_user :
    ((mkUserLocation "u1" "R1" "Alice" 1 2 none).id = "u1-R1") ∧
    (∀ (uid rid uname : String) (x y : ℚ) (sn : Option String),
        (mkUserLocation uid rid uname x y sn).id = uid ++ "-" ++ rid) ∧
    (∀ (rows : List UserLocation) (a b : UserLocation), b.id = a.id →
        (upsert (upsert rows a) b).length = (upsert rows a).length) ∧
    (∀ (locs : List UserLocation) (loc : UserLocation),
        (applyRealtimeMessage locs (RealtimeMessage.locationUpdate loc)).filter
            (fun l => l.user_id == loc.user_id) = [loc]) ∧
    (∀ (locs : List UserLocation) (msg : RealtimeMessage),
        (locs.map (fun l => l.user_id)).Nodup →
        ((applyRealtimeMessage locs msg).map (fun l => l.user_id)).Nodup) := by
  refine ⟨rfl, ?_, ?_, ?_, ?_⟩
  · intro uid rid uname x y sn
    rfl
  · intro rows a b hid
    have h := upsert_any_id rows a
    rw [upsert]
    simp only [hid]
    rw [if_pos h]
    exact List.length_map _ _
  · intro locs loc
    simp only [applyRealtimeMessage]
    rw [List.filter_append]
    have h1 : (locs.filter (fun l => l.user_id != loc.user_id)).filter
        (fun l => l.user_id == loc.user_id) = [] := by
      rw [List.filter_eq_nil_iff]
      intro a ha
      rw [List.mem_filter] at ha
      have h2 := ha.2
      simp only [bne_iff_ne, ne_eq] at h2
      simp [h2]
    rw [h1]
    simp
  · intro locs msg hnd
    cases msg with
    | locationUpdate loc =>
        simp only [applyRealtimeMessage, List.map_append, List.map_cons, List.map_nil]
        rw [List.nodup_append]
        refine ⟨?_, List.nodup_singleton _, ?_⟩
        · exact hnd.sublist ((List.filter_sublist _).map _)
        · intro a ha hb
          rw [List.mem_singleton] at hb
          rw [List.mem_map] at ha
          obtain ⟨l, hl, rfl⟩ := ha
          rw [List.mem_filter] at hl
          have h2 := hl.2
          simp only [bne_iff_ne, ne_eq] at h2
          exact h2 hb
    | userLeft uid => exact hnd.sublist ((List.filter_sublist _).map _)
    | other => exact hnd

/-- Witness for C8: a repeated write of the same user-room location does
not grow the stored row list. -/
theorem one_location_per_user_witness :
    (upsert (upsert [] (mkUserLocation "u1" "R1" "Alice" 1 2 none))
        (mkUserLocation "u1" "R1" "Alice" 1 2 none)).length
      = (upsert [] (mkUserLocation "u1" "R1" "Alice" 1 2 none)).length :=
  one_location_per_user.2.2.1 [] (mkUserLocation "u1" "R1" "Alice" 1 2 none)
    (mkUserLocation "u1" "R1" "Alice" 1 2 none) rfl
